import Mathlib

/-!
Shallow embedding of the shopping-bill engine of `shopping_list.js`.

A JavaScript `Map` is modelled as an insertion-ordered association list:
`get` returns the value stored under the first matching key, `set` replaces
the value in place when the key is present (keeping its position) and
appends a new entry at the end otherwise — exactly the iteration-order
semantics of `Map.prototype.set` / `Map.prototype.get`.

All JavaScript numbers occurring in the program are integers, so they are
embedded as `Int` (`Nat` for SKU keys, which are non-negative literals).
`Math.floor(x / y)` on integers with `y ≥ 1` is floor division, embedded as
`Int.fdiv`.
-/

namespace ShoppingList

/-- `function Item(desc, unitPrice)` — a stock item. -/
structure Item where
  desc : String
  unitPrice : Int
deriving DecidableEq

/-- `function Discount(qty, amount)` — a multi-buy discount rule. -/
structure Discount where
  qty : Int
  amount : Int
deriving DecidableEq

/-- `var calcDiscount = itemQty => discountQty => discountAmt =>
Math.floor(itemQty / discountQty) * discountAmt`. -/
def calcDiscount (itemQty discountQty discountAmt : Int) : Int :=
  Int.fdiv itemQty discountQty * discountAmt

/-- `var calcAmount = itemQty => unitPrice => discount =>
(itemQty * unitPrice) - discount`. -/
def calcAmount (itemQty unitPrice discount : Int) : Int :=
  itemQty * unitPrice - discount

/-- `var calcPrice = qty => unitPrice => discount => ...` — computes the
discount amount from the rule and subtracts it from `qty * unitPrice`. -/
def calcPrice (qty unitPrice : Int) (discount : Discount) : Int :=
  calcAmount qty unitPrice (calcDiscount qty discount.qty discount.amount)

/-- `function BillItem(qty, item, discount)` — one aggregated bill line. -/
structure BillItem where
  qty : Int
  item : Item
  discount : Discount
deriving DecidableEq

/-- `this.price = () => calcPrice(this.qty)(this.item.unitPrice)(this.discount)`:
the derived price of a bill line, recomputed from its current fields. -/
def BillItem.price (b : BillItem) : Int :=
  calcPrice b.qty b.item.unitPrice b.discount

/-- `const UNKNOWN_SKU_TXT = "Unknown SKU"`. -/
def UNKNOWN_SKU_TXT : String := "Unknown SKU"

/-- `const UNKNOWN_SKU = new Item(UNKNOWN_SKU_TXT, 0)`. -/
def UNKNOWN_SKU : Item := Item.mk UNKNOWN_SKU_TXT 0

/-- `const NO_DISCOUNT = new Discount(1, 0)`. -/
def NO_DISCOUNT : Discount := Discount.mk 1 0

/-- `Map.prototype.get`: value stored under the first matching key, if any. -/
def mapGet {α β : Type} [DecidableEq α] : List (α × β) → α → Option β
  | [], _ => none
  | (k, v) :: rest, k0 => if k = k0 then some v else mapGet rest k0

/-- `Map.prototype.set`: replace in place when the key is present (keeping
its position), append a fresh entry at the end otherwise. -/
def mapSet {α β : Type} [DecidableEq α] : List (α × β) → α → β → List (α × β)
  | [], k0, v0 => [(k0, v0)]
  | (k, v) :: rest, k0, v0 =>
      if k = k0 then (k, v0) :: rest else (k, v) :: mapSet rest k0 v0

/-- `var genericMapGet = someMap => notThereValue => theThing =>
(v => (v === undefined) ? notThereValue : v)(someMap.get(theThing))`. -/
def genericMapGet {α β : Type} [DecidableEq α]
    (someMap : List (α × β)) (notThereValue : β) (theThing : α) : β :=
  match mapGet someMap theThing with
  | none => notThereValue
  | some v => v

/-- `var stockList = new Map([...])` — the stock catalog. -/
def stockList : List (Nat × Item) :=
  [ (670,  Item.mk "Apples (pack of 5)" 194)
  , (5243, Item.mk "Bananas (1kg)" 268)
  , (3317, Item.mk "Oranges (pack of 5)" 150)
  , (5712, Item.mk "Pineapple" 259)
  , (8903, Item.mk "Mango" 75)
  , (643,  Item.mk "Potatoes (2.5kg)" 198)
  , (57,   Item.mk "Tomatoes (1kg)" 199)
  , (56,   Item.mk "Onions (pack of 4)" 83)
  , (1094, Item.mk "Lettuce" 49)
  , (2275, Item.mk "Rice (1kg)" 148)
  , (6034, Item.mk "Pasta (1kg)" 120)
  , (5907, Item.mk "Bread (800g loaf)" 145)
  , (3111, Item.mk "Pizza (350g)" 260)
  , (554,  Item.mk "Beef Mince (500g)" 199)
  , (1373, Item.mk "Chicken Breast (pack of 2)" 300)
  , (6564, Item.mk "Salmon Fillets (pack of 2)" 323)
  , (7102, Item.mk "Pasta Sauce (500g jar)" 184)
  , (5079, Item.mk "Curry Sauce (500g jar)" 184)
  , (6386, Item.mk "Cheese (250g)" 174)
  , (347,  Item.mk "Butter (250g)" 152)
  , (1019, Item.mk "Plain Yoghurt (500g)" 94)
  , (9190, Item.mk "Milk (568ml / 1 pint)" 68)
  , (6487, Item.mk "Milk (2.27L / 4 pints)" 219)
  , (4705, Item.mk "Fresh Orange Juice (1L)" 169)
  , (3263, Item.mk "Cola (2L)" 99)
  , (6469, Item.mk "Beer (pack of 4 bottles)" 400)
  , (5671, Item.mk "Red wine (70cl bottle)" 750)
  , (4719, Item.mk "Fish Fingers (500g)" 335)
  , (5643, Item.mk "Soap Powder" 500)
  , (1234, Item.mk "Dry Sherry, 1lt" 1010) ]

/-- `var basket = [...]` — the current shopping basket. -/
def basket : List Nat :=
  [670, 3317, 643, 1234, 5907, 6034, 670, 1234, 5671, 7102, 7102, 1094,
   1373, 7102, 5671, 6469]

/-- `var discountedSkus = new Map([...])` — the discount registry. -/
def discountedSkus : List (Nat × Discount) :=
  [ (1234, Discount.mk 2 250)
  , (5671, Discount.mk 2 125)
  , (7102, Discount.mk 3 50) ]

/-- `var readItem = genericMapGet(stockList)(UNKNOWN_SKU)`. -/
def readItem (sku : Nat) : Item :=
  genericMapGet stockList UNKNOWN_SKU sku

/-- `var readDiscount = genericMapGet(discountedSkus)(NO_DISCOUNT)`. -/
def readDiscount (sku : Nat) : Discount :=
  genericMapGet discountedSkus NO_DISCOUNT sku

/-- The bill accumulator: a JavaScript `Map` from SKU to `BillItem`. -/
abbrev Bill := List (Nat × BillItem)

/-- `var updateQty = bill => sku =>
(billItem => 1 + (billItem === undefined ? 0 : billItem.qty))(bill.get(sku))`. -/
def updateQty (bill : Bill) (sku : Nat) : Int :=
  1 + (match mapGet bill sku with
       | none => 0
       | some billItem => billItem.qty)

/-- `var addItemToBill = (acc, sku) => ...`, with the two global registries
`stockList` and `discountedSkus` it dereferences made explicit parameters.
It computes the updated quantity and resolves the item and discount, then
returns the accumulator unchanged when the resolved item's description is
the unknown-SKU marker text, and upserts the bill entry otherwise. -/
def addItemToBillIn (stock : List (Nat × Item)) (discounts : List (Nat × Discount))
    (acc : Bill) (sku : Nat) : Bill :=
  let newQty := updateQty acc sku
  let item := genericMapGet stock UNKNOWN_SKU sku
  let discount := genericMapGet discounts NO_DISCOUNT sku
  if item.desc = UNKNOWN_SKU_TXT then acc
  else mapSet acc sku (BillItem.mk newQty item discount)

/-- `addItemToBill` as the source uses it: over the program's fixed
`stockList` and `discountedSkus` registries. -/
def addItemToBill (acc : Bill) (sku : Nat) : Bill :=
  addItemToBillIn stockList discountedSkus acc sku

/-- `basket.reduce(addItemToBill, new Map())` in `displayScreen`,
for an arbitrary basket sequence. -/
def mkBill (basketList : List Nat) : Bill :=
  basketList.foldl addItemToBill []

/-- `Array.from(billMap.values())` in `displayScreen`. -/
def billValues (bill : Bill) : List BillItem :=
  bill.map Prod.snd

/-- `billArray.reduce((acc, item) => acc + item.price(), 0)` in
`displayScreen` — the grand total of the bill. -/
def grandTotal (bill : Bill) : Int :=
  (billValues bill).foldl (fun acc it => acc + it.price) 0

/-- The quantity stored under a lookup result, `0` when absent — the value
`billItem === undefined ? 0 : billItem.qty` that `updateQty` adds one to. -/
def qtyOf (o : Option BillItem) : Int :=
  match o with
  | none => 0
  | some billItem => billItem.qty

/-- Spec-side definition (for the refinement claim about iteration order),
following the spec's words: the bill's keys are the distinct SKUs of the
basket that are present in the stock catalog, listed in the order of each
SKU's first occurrence; re-encountering an already-listed SKU keeps its
position. -/
def specFirstOccurrenceKeys (basketList : List Nat) : List Nat :=
  basketList.foldl
    (fun ks s =>
      if s ∈ stockList.map Prod.fst then (if s ∈ ks then ks else ks ++ [s]) else ks)
    []

/-! ### Lemmas about the `Map` model -/

variable {α β : Type} [DecidableEq α]

theorem mapGet_mapSet_self (m : List (α × β)) (k : α) (v : β) :
    mapGet (mapSet m k v) k = some v := by
  induction m with
  | nil => simp [mapSet, mapGet]
  | cons e rest ih =>
    obtain ⟨k1, v1⟩ := e
    by_cases h : k1 = k
    · subst h
      simp [mapSet, mapGet]
    · simp [mapSet, mapGet, h, ih]

theorem mapGet_mapSet_ne (m : List (α × β)) (k s : α) (v : β) (h : s ≠ k) :
    mapGet (mapSet m k v) s = mapGet m s := by
  have hks : ¬ k = s := fun hh => h hh.symm
  induction m with
  | nil => simp [mapSet, mapGet, hks]
  | cons e rest ih =>
    obtain ⟨k1, v1⟩ := e
    by_cases hk : k1 = k
    · subst hk
      have hks : ¬ k1 = s := fun hh => h (hh.symm)
      simp [mapSet, mapGet, hks]
    · simp [mapSet, mapGet, hk, ih]

theorem keys_mapSet_of_mem (m : List (α × β)) (k : α) (v : β)
    (h : k ∈ m.map Prod.fst) :
    (mapSet m k v).map Prod.fst = m.map Prod.fst := by
  induction m with
  | nil => simp at h
  | cons e rest ih =>
    obtain ⟨k1, v1⟩ := e
    by_cases hk : k1 = k
    · subst hk
      simp [mapSet]
    · have hr : k ∈ rest.map Prod.fst := by
        simp at h
        rcases h with h | h
        · exact absurd h.symm hk
        · simpa using h
      simp [mapSet, hk, ih hr]

theorem keys_mapSet_of_not_mem (m : List (α × β)) (k : α) (v : β)
    (h : k ∉ m.map Prod.fst) :
    (mapSet m k v).map Prod.fst = m.map Prod.fst ++ [k] := by
  induction m with
  | nil => simp [mapSet]
  | cons e rest ih =>
    obtain ⟨k1, v1⟩ := e
    have hk : ¬ k1 = k := by
      intro hh
      exact h (by simp [hh])
    have hr : k ∉ rest.map Prod.fst := by
      intro hh
      exact h (by simp [hh])
    simp [mapSet, hk, ih hr]

theorem mapGet_eq_none_iff (m : List (α × β)) (k : α) :
    mapGet m k = none ↔ k ∉ m.map Prod.fst := by
  induction m with
  | nil => simp [mapGet]
  | cons e rest ih =>
    obtain ⟨k1, v1⟩ := e
    by_cases hk : k1 = k
    · subst hk
      simp [mapGet]
    · have hne : ¬ k = k1 := fun hh => hk hh.symm
      simp [mapGet, hk, ih, hne]

theorem mapGet_mem_values (m : List (α × β)) (k : α) (v : β)
    (h : mapGet m k = some v) : v ∈ m.map Prod.snd := by
  induction m with
  | nil => simp [mapGet] at h
  | cons e rest ih =>
    obtain ⟨k1, v1⟩ := e
    by_cases hk : k1 = k
    · subst hk
      simp [mapGet] at h
      simp [h]
    · simp [mapGet, hk] at h
      simp [ih h]

theorem keys_nodup_mapSet (m : List (α × β)) (k : α) (v : β)
    (h : (m.map Prod.fst).Nodup) :
    ((mapSet m k v).map Prod.fst).Nodup := by
  by_cases hk : k ∈ m.map Prod.fst
  · rw [keys_mapSet_of_mem m k v hk]
    exact h
  · rw [keys_mapSet_of_not_mem m k v hk]
    simp [List.nodup_append, h, hk]

/-! ### Lemmas about the aggregation fold -/

theorem updateQty_eq (bill : Bill) (sku : Nat) :
    updateQty bill sku = 1 + qtyOf (mapGet bill sku) := rfl

theorem addItemToBillIn_of_dropped {stock : List (Nat × Item)}
    {discounts : List (Nat × Discount)} {acc : Bill} {sku : Nat}
    (h : (genericMapGet stock UNKNOWN_SKU sku).desc = UNKNOWN_SKU_TXT) :
    addItemToBillIn stock discounts acc sku = acc := by
  simp [addItemToBillIn, h]

theorem addItemToBillIn_of_kept {stock : List (Nat × Item)}
    {discounts : List (Nat × Discount)} {acc : Bill} {sku : Nat}
    (h : ¬ (genericMapGet stock UNKNOWN_SKU sku).desc = UNKNOWN_SKU_TXT) :
    addItemToBillIn stock discounts acc sku =
      mapSet acc sku
        (BillItem.mk (updateQty acc sku) (genericMapGet stock UNKNOWN_SKU sku)
          (genericMapGet discounts NO_DISCOUNT sku)) := by
  simp [addItemToBillIn, h]

theorem mapGet_foldl_addItemToBillIn (stock : List (Nat × Item))
    (discounts : List (Nat × Discount)) :
    ∀ (bl : List Nat) (acc : Bill) (s : Nat),
      mapGet (bl.foldl (addItemToBillIn stock discounts) acc) s =
        if (genericMapGet stock UNKNOWN_SKU s).desc = UNKNOWN_SKU_TXT ∨ bl.count s = 0 then
          mapGet acc s
        else
          some (BillItem.mk ((bl.count s : Int) + qtyOf (mapGet acc s))
            (genericMapGet stock UNKNOWN_SKU s)
            (genericMapGet discounts NO_DISCOUNT s)) := by
  intro bl
  induction bl with
  | nil => intro acc s; simp
  | cons x rest ih =>
    intro acc s
    rw [List.foldl_cons]
    by_cases hd : (genericMapGet stock UNKNOWN_SKU x).desc = UNKNOWN_SKU_TXT
    · rw [addItemToBillIn_of_dropped hd, ih]
      by_cases hxs : x = s
      · subst hxs
        simp [hd]
      · have hc : (x :: rest).count s = rest.count s := by
          simp [List.count_cons, hxs]
        rw [hc]
    · rw [addItemToBillIn_of_kept hd, ih]
      by_cases hxs : x = s
      · subst hxs
        have hc : (x :: rest).count x = rest.count x + 1 := by
          simp [List.count_cons]
        rw [mapGet_mapSet_self, hc]
        by_cases h0 : rest.count x = 0
        · simp [hd, h0, updateQty_eq, qtyOf]
        · simp [hd, h0, updateQty_eq, qtyOf]
          omega
      · have hs : s ≠ x := fun hh => hxs hh.symm
        rw [mapGet_mapSet_ne acc x s _ hs]
        have hc : (x :: rest).count s = rest.count s := by
          simp [List.count_cons, hxs]
        rw [hc]

theorem keys_foldl_addItemToBillIn (stock : List (Nat × Item))
    (discounts : List (Nat × Discount)) :
    ∀ (bl : List Nat) (acc : Bill),
      (bl.foldl (addItemToBillIn stock discounts) acc).map Prod.fst =
        bl.foldl
          (fun ks s =>
            if (genericMapGet stock UNKNOWN_SKU s).desc = UNKNOWN_SKU_TXT then ks
            else if s ∈ ks then ks else ks ++ [s])
          (acc.map Prod.fst) := by
  intro bl
  induction bl with
  | nil => intro acc; rfl
  | cons x rest ih =>
    intro acc
    rw [List.foldl_cons, List.foldl_cons, ih]
    congr 1
    by_cases hd : (genericMapGet stock UNKNOWN_SKU x).desc = UNKNOWN_SKU_TXT
    · rw [addItemToBillIn_of_dropped hd]
      simp [hd]
    · rw [addItemToBillIn_of_kept hd]
      by_cases hm : x ∈ acc.map Prod.fst
      · rw [keys_mapSet_of_mem acc x _ hm]
        simp [hd, hm]
      · rw [keys_mapSet_of_not_mem acc x _ hm]
        simp [hd, hm]

theorem keys_nodup_foldl (stock : List (Nat × Item))
    (discounts : List (Nat × Discount)) :
    ∀ (bl : List Nat) (acc : Bill), (acc.map Prod.fst).Nodup →
      ((bl.foldl (addItemToBillIn stock discounts) acc).map Prod.fst).Nodup := by
  intro bl
  induction bl with
  | nil => intro acc h; exact h
  | cons x rest ih =>
    intro acc h
    rw [List.foldl_cons]
    apply ih
    by_cases hd : (genericMapGet stock UNKNOWN_SKU x).desc = UNKNOWN_SKU_TXT
    · rw [addItemToBillIn_of_dropped hd]
      exact h
    · rw [addItemToBillIn_of_kept hd]
      exact keys_nodup_mapSet acc x _ h

/-! ### Domain helper lemmas -/

theorem mkBill_eq (bl : List Nat) :
    mkBill bl = bl.foldl (addItemToBillIn stockList discountedSkus) [] := rfl

theorem stock_values_desc :
    ∀ it ∈ stockList.map Prod.snd, ¬ it.desc = UNKNOWN_SKU_TXT := by decide

theorem stock_dropped_iff (s : Nat) :
    (genericMapGet stockList UNKNOWN_SKU s).desc = UNKNOWN_SKU_TXT ↔
      s ∉ stockList.map Prod.fst := by
  constructor
  · intro h hmem
    cases hg : mapGet stockList s with
    | none => exact ((mapGet_eq_none_iff stockList s).mp hg) hmem
    | some v =>
      have hv : v ∈ stockList.map Prod.snd := mapGet_mem_values stockList s v hg
      have hvv : genericMapGet stockList UNKNOWN_SKU s = v := by
        simp [genericMapGet, hg]
      rw [hvv] at h
      exact stock_values_desc v hv h
  · intro hmem
    have hg : mapGet stockList s = none := (mapGet_eq_none_iff stockList s).mpr hmem
    simp [genericMapGet, hg, UNKNOWN_SKU]

theorem mapGet_mkBill (bl : List Nat) (s : Nat) :
    mapGet (mkBill bl) s =
      if (genericMapGet stockList UNKNOWN_SKU s).desc = UNKNOWN_SKU_TXT ∨
          bl.count s = 0 then none
      else some (BillItem.mk (bl.count s : Int) (readItem s) (readDiscount s)) := by
  rw [mkBill_eq, mapGet_foldl_addItemToBillIn]
  have hnone : mapGet ([] : Bill) s = none := rfl
  rw [hnone]
  by_cases hc : (genericMapGet stockList UNKNOWN_SKU s).desc = UNKNOWN_SKU_TXT ∨
      bl.count s = 0
  · rw [if_pos hc, if_pos hc]
  · rw [if_neg hc, if_neg hc]
    simp [qtyOf, readItem, readDiscount]

theorem genericMapGet_mem_or_fallback {α β : Type} [DecidableEq α]
    (m : List (α × β)) (fb : β) (k : α) :
    genericMapGet m fb k = fb ∨ genericMapGet m fb k ∈ m.map Prod.snd := by
  cases hg : mapGet m k with
  | none =>
    left
    simp [genericMapGet, hg]
  | some v =>
    right
    have hv := mapGet_mem_values m k v hg
    simpa [genericMapGet, hg] using hv

theorem discount_values_qty :
    ∀ d ∈ discountedSkus.map Prod.snd, 1 ≤ d.qty := by decide

theorem readDiscount_qty (sku : Nat) : 1 ≤ (readDiscount sku).qty := by
  rcases genericMapGet_mem_or_fallback discountedSkus NO_DISCOUNT sku with h | h
  · rw [readDiscount, h]
    decide
  · exact discount_values_qty _ h

theorem foldl_filter_of_id {γ δ : Type} (f : γ → δ → γ) (p : δ → Bool)
    (h : ∀ acc x, p x = false → f acc x = acc) :
    ∀ (l : List δ) (acc : γ), l.foldl f acc = (l.filter p).foldl f acc := by
  intro l
  induction l with
  | nil => intro acc; rfl
  | cons x rest ih =>
    intro acc
    by_cases hx : p x = true
    · rw [List.foldl_cons, List.filter_cons, if_pos hx, List.foldl_cons, ih]
    · have hx0 : p x = false := by simpa using hx
      rw [List.foldl_cons, h acc x hx0, List.filter_cons, if_neg (by simp [hx0]), ih]

theorem grandTotal_eq_sum (bill : Bill) :
    grandTotal bill = ((billValues bill).map BillItem.price).sum := by
  rw [List.sum_eq_foldl, List.foldl_map]
  rfl

/-! ### Claim theorems -/

/-- Claim C3: for all non-negative integers `q`, `a` and every integer
`t ≥ 1`, `calcDiscount q t a` equals `floor (q / t) * a` (floor division,
expressed through natural-number division), and in particular it equals `0`
whenever `q < t`: only whole multiples of the threshold quantity earn the
per-threshold discount amount. -/
theorem calcDiscount_is_floor_multiples (q t a : Int)
    (hq : 0 ≤ q) (_ha : 0 ≤ a) (ht : 1 ≤ t) :
    calcDiscount q t a = ((q.toNat / t.toNat : Nat) : Int) * a ∧
      (q < t → calcDiscount q t a = 0) := by
  have ht0 : 0 ≤ t := le_trans (by norm_num) ht
  obtain ⟨m, hm⟩ := Int.eq_ofNat_of_zero_le hq
  obtain ⟨n, hn⟩ := Int.eq_ofNat_of_zero_le ht0
  subst hm
  subst hn
  constructor
  · unfold calcDiscount
    rw [Int.fdiv_eq_tdiv (Int.ofNat_nonneg m) (Int.ofNat_nonneg n), ← Int.ofNat_tdiv]
    simp [Int.toNat_natCast]
  · intro hlt
    have hmn : m < n := by exact_mod_cast hlt
    unfold calcDiscount
    rw [Int.fdiv_eq_tdiv (Int.ofNat_nonneg m) (Int.ofNat_nonneg n), ← Int.ofNat_tdiv]
    simp [Nat.div_eq_of_lt hmn]

/-- Witness for the C3 theorem at `q = 5`, `t = 2`, `a = 3`. -/
theorem calcDiscount_is_floor_multiples_witness :
    calcDiscount 5 2 3 = (((5 : Int).toNat / (2 : Int).toNat : Nat) : Int) * 3 ∧
      ((5 : Int) < 2 → calcDiscount 5 2 3 = 0) :=
  calcDiscount_is_floor_multiples 5 2 3 (by norm_num) (by norm_num) (by norm_num)

/-- Claim C5: the derived price of every bill line equals
`qty * unitPrice - floor (qty / thresholdQty) * amountPerThreshold`,
computed from the line's current fields (in this pure embedding `price` is
literally a function of those fields, so no cached value can exist), and the
result is not clamped at zero — witnessed by a line whose derived price is
negative. -/
theorem billItem_price_formula :
    (∀ b : BillItem,
        b.price = b.qty * b.item.unitPrice -
          calcDiscount b.qty b.discount.qty b.discount.amount) ∧
      (BillItem.mk 1 (Item.mk "Sample" 1) (Discount.mk 1 2)).price = -1 := by
  constructor
  · intro b
    rfl
  · decide

/-- Claim C6: the generic lookup returns the registry's stored value when
the key is present and the fallback value unchanged when the key is absent;
it is a total function, so no failure is possible. -/
theorem genericMapGet_lookup_spec {α β : Type} [DecidableEq α]
    (registry : List (α × β)) (fallback : β) (key : α) :
    (∀ v, mapGet registry key = some v → genericMapGet registry fallback key = v) ∧
      (mapGet registry key = none → genericMapGet registry fallback key = fallback) := by
  constructor
  · intro v hv
    simp [genericMapGet, hv]
  · intro hv
    simp [genericMapGet, hv]

/-- Witness for the C6 theorem on the registry `[(1, 5)]` with fallback `7`,
at the present key `1` and the absent key `2`. -/
theorem genericMapGet_lookup_spec_witness :
    genericMapGet [((1 : Nat), (5 : Int))] 7 1 = 5 ∧
      genericMapGet [((1 : Nat), (5 : Int))] 7 2 = 7 :=
  And.intro
    ((genericMapGet_lookup_spec [((1 : Nat), (5 : Int))] 7 1).1 5 rfl)
    ((genericMapGet_lookup_spec [((1 : Nat), (5 : Int))] 7 2).2 rfl)

/-- Claim C8: the no-discount sentinel and every discount rule
`readDiscount` can return have a threshold quantity of at least `1`, and so
does the discount rule stored on every line of every aggregated bill —
hence `calcDiscount` never divides by zero for such lines. -/
theorem discount_threshold_positive :
    (1 ≤ NO_DISCOUNT.qty ∧ ∀ sku : Nat, 1 ≤ (readDiscount sku).qty) ∧
      ∀ (bl : List Nat) (s : Nat) (bi : BillItem),
        mapGet (mkBill bl) s = some bi → 1 ≤ bi.discount.qty := by
  refine ⟨⟨by decide, readDiscount_qty⟩, ?_⟩
  intro bl s bi h
  rw [mapGet_mkBill] at h
  by_cases hc : (genericMapGet stockList UNKNOWN_SKU s).desc = UNKNOWN_SKU_TXT ∨
      bl.count s = 0
  · rw [if_pos hc] at h
    exact absurd h (by simp)
  · rw [if_neg hc] at h
    have hbi := Option.some.inj h
    rw [← hbi]
    exact readDiscount_qty s

/-- Witness for the C8 theorem on the basket `[1234]` at SKU `1234`. -/
theorem discount_threshold_positive_witness :
    1 ≤ (BillItem.mk 1 (readItem 1234) (readDiscount 1234)).discount.qty :=
  discount_threshold_positive.2 [1234] 1234
    (BillItem.mk 1 (readItem 1234) (readDiscount 1234)) (by decide)

/-- Claim C1: folding any basket with `addItemToBill` from the empty map
yields a bill that, for every catalog SKU occurring in the basket, holds
exactly one line for that SKU whose quantity is its number of occurrences
in the basket, and holds no line at all for any SKU (catalog or not) that
does not occur in the basket. -/
theorem bill_line_quantities (bl : List Nat) :
    (∀ s : Nat, s ∈ stockList.map Prod.fst → s ∈ bl →
        ((mkBill bl).map Prod.fst).count s = 1 ∧
          mapGet (mkBill bl) s =
            some (BillItem.mk (bl.count s : Int) (readItem s) (readDiscount s))) ∧
      ∀ t : Nat, t ∉ bl → ((mkBill bl).map Prod.fst).count t = 0 := by
  constructor
  · intro s hcat hmem
    have hdesc : ¬ (genericMapGet stockList UNKNOWN_SKU s).desc = UNKNOWN_SKU_TXT :=
      fun hh => ((stock_dropped_iff s).mp hh) hcat
    have hcount : ¬ bl.count s = 0 := by
      have := List.count_pos_iff.mpr hmem
      omega
    have hget : mapGet (mkBill bl) s =
        some (BillItem.mk (bl.count s : Int) (readItem s) (readDiscount s)) := by
      rw [mapGet_mkBill, if_neg (by push_neg; exact ⟨hdesc, hcount⟩)]
    refine ⟨?_, hget⟩
    have hmemkeys : s ∈ (mkBill bl).map Prod.fst := by
      by_contra hn
      rw [← mapGet_eq_none_iff] at hn
      rw [hn] at hget
      exact Option.noConfusion hget
    have hnodup : ((mkBill bl).map Prod.fst).Nodup := by
      rw [mkBill_eq]
      exact keys_nodup_foldl stockList discountedSkus bl [] (by simp)
    exact List.count_eq_one_of_mem hnodup hmemkeys
  · intro t ht
    have h0 : bl.count t = 0 := List.count_eq_zero.mpr ht
    have hnone : mapGet (mkBill bl) t = none := by
      rw [mapGet_mkBill]
      simp [h0]
    rw [mapGet_eq_none_iff] at hnone
    exact List.count_eq_zero.mpr hnone

/-- Witness for the C1 theorem on the basket `[670, 9999, 670]`: SKU `670`
is in the catalog and occurs twice; SKU `5243` does not occur. -/
theorem bill_line_quantities_witness :
    (((mkBill [670, 9999, 670]).map Prod.fst).count 670 = 1 ∧
        mapGet (mkBill [670, 9999, 670]) 670 =
          some (BillItem.mk (([670, 9999, 670] : List Nat).count 670 : Int)
            (readItem 670) (readDiscount 670))) ∧
      ((mkBill [670, 9999, 670]).map Prod.fst).count 5243 = 0 :=
  And.intro
    ((bill_line_quantities [670, 9999, 670]).1 670 (by decide) (by decide))
    ((bill_line_quantities [670, 9999, 670]).2 5243 (by decide))

/-- Claim C2: occurrences of SKUs absent from the stock catalog produce no
bill line and do not change the grand total — the bill (and hence its
total) computed from a basket equals the one computed from the basket with
all unknown-SKU occurrences filtered out.  Both sides are total functions,
so no failure is raised for an unknown SKU. -/
theorem unknown_sku_occurrences_dropped (bl : List Nat) :
    mkBill bl = mkBill (bl.filter fun s => decide (s ∈ stockList.map Prod.fst)) ∧
      grandTotal (mkBill bl) =
        grandTotal (mkBill (bl.filter fun s => decide (s ∈ stockList.map Prod.fst))) := by
  have hbill : mkBill bl =
      mkBill (bl.filter fun s => decide (s ∈ stockList.map Prod.fst)) := by
    rw [mkBill_eq, mkBill_eq]
    refine foldl_filter_of_id _ _ ?_ bl []
    intro acc x hx
    have hmem : x ∉ stockList.map Prod.fst := by simpa using hx
    exact addItemToBillIn_of_dropped ((stock_dropped_iff x).mpr hmem)
  exact ⟨hbill, by rw [hbill]⟩

/-- Claim C4: the engine's grand total equals the sum over all bill lines
of the line's derived price (quantity times unit price minus the discount
amount), and summing in any other order (any permutation of the lines)
gives the same total. -/
theorem bill_total_is_sum_of_line_prices (bill : Bill) :
    grandTotal bill =
        (bill.map fun e =>
          e.2.qty * e.2.item.unitPrice -
            calcDiscount e.2.qty e.2.discount.qty e.2.discount.amount).sum ∧
      ∀ bill2 : Bill, List.Perm bill bill2 → grandTotal bill = grandTotal bill2 := by
  constructor
  · rw [grandTotal_eq_sum]
    unfold billValues
    rw [List.map_map]
    rfl
  · intro bill2 hp
    rw [grandTotal_eq_sum, grandTotal_eq_sum]
    exact List.Perm.sum_eq ((hp.map Prod.snd).map BillItem.price)

/-- Witness for the C4 theorem on a two-line bill and its reversal. -/
theorem bill_total_is_sum_of_line_prices_witness :
    grandTotal [((1 : Nat), BillItem.mk 2 (Item.mk "A" 3) (Discount.mk 1 0)),
        ((2 : Nat), BillItem.mk 1 (Item.mk "B" 5) (Discount.mk 1 0))] =
      grandTotal [((2 : Nat), BillItem.mk 1 (Item.mk "B" 5) (Discount.mk 1 0)),
        ((1 : Nat), BillItem.mk 2 (Item.mk "A" 3) (Discount.mk 1 0))] :=
  (bill_total_is_sum_of_line_prices
      [((1 : Nat), BillItem.mk 2 (Item.mk "A" 3) (Discount.mk 1 0)),
       ((2 : Nat), BillItem.mk 1 (Item.mk "B" 5) (Discount.mk 1 0))]).2
    [((2 : Nat), BillItem.mk 1 (Item.mk "B" 5) (Discount.mk 1 0)),
     ((1 : Nat), BillItem.mk 2 (Item.mk "A" 3) (Discount.mk 1 0))]
    (List.Perm.swap ((2 : Nat), BillItem.mk 1 (Item.mk "B" 5) (Discount.mk 1 0))
      ((1 : Nat), BillItem.mk 2 (Item.mk "A" 3) (Discount.mk 1 0)) [])

/-- Claim C7: aggregating a basket and any permutation of it (with the
program's registries unchanged) yields bills with identical per-SKU
quantities and identical per-SKU line prices. -/
theorem mkBill_perm_per_sku (b1 b2 : List Nat) (h : List.Perm b1 b2) (s : Nat) :
    (mapGet (mkBill b1) s).map BillItem.qty = (mapGet (mkBill b2) s).map BillItem.qty ∧
      (mapGet (mkBill b1) s).map BillItem.price =
        (mapGet (mkBill b2) s).map BillItem.price := by
  have hc : b1.count s = b2.count s := h.count_eq s
  have hg : mapGet (mkBill b1) s = mapGet (mkBill b2) s := by
    rw [mapGet_mkBill, mapGet_mkBill, hc]
  rw [hg]
  exact ⟨rfl, rfl⟩

/-- Witness for the C7 theorem on the baskets `[670, 1234]` and
`[1234, 670]` at SKU `670`. -/
theorem mkBill_perm_per_sku_witness :
    (mapGet (mkBill [670, 1234]) 670).map BillItem.qty =
        (mapGet (mkBill [1234, 670]) 670).map BillItem.qty ∧
      (mapGet (mkBill [670, 1234]) 670).map BillItem.price =
        (mapGet (mkBill [1234, 670]) 670).map BillItem.price :=
  mkBill_perm_per_sku [670, 1234] [1234, 670] (List.Perm.swap 1234 670 []) 670

/-- Claim C9: the bill holds exactly one entry per distinct known SKU of
the basket (its key list has no duplicates), and iterating it yields the
entries in the order of each SKU's first occurrence in the basket —
upserting an already-present SKU keeps its position
(`specFirstOccurrenceKeys` is the spec-side description of that order). -/
theorem bill_iteration_order (bl : List Nat) :
    (mkBill bl).map Prod.fst = specFirstOccurrenceKeys bl ∧
      ((mkBill bl).map Prod.fst).Nodup := by
  constructor
  · rw [mkBill_eq, keys_foldl_addItemToBillIn]
    unfold specFirstOccurrenceKeys
    have hnil : (([] : Bill)).map Prod.fst = ([] : List Nat) := rfl
    rw [hnil]
    apply List.foldl_ext
    intro ks s _
    by_cases hmem : s ∈ stockList.map Prod.fst
    · have hd : ¬ (genericMapGet stockList UNKNOWN_SKU s).desc = UNKNOWN_SKU_TXT :=
        fun hh => ((stock_dropped_iff s).mp hh) hmem
      simp [hd, hmem]
    · have hd : (genericMapGet stockList UNKNOWN_SKU s).desc = UNKNOWN_SKU_TXT :=
        (stock_dropped_iff s).mpr hmem
      simp [hd, hmem]
  · rw [mkBill_eq]
    exact keys_nodup_foldl stockList discountedSkus bl [] (by simp)

/-- Claim C10: the aggregator decides "unknown SKU" by comparing the
looked-up item's description to the marker text, not by identity with the
sentinel object: with any stock registry that stores, under some SKU, an
item whose description equals the marker text, every occurrence of that SKU
is dropped from the bill even though the SKU is present in the registry. -/
theorem marker_desc_occurrences_dropped (stock : List (Nat × Item))
    (discounts : List (Nat × Discount)) (acc : Bill) (bl : List Nat)
    (sku : Nat) (u : Int)
    (h : mapGet stock sku = some (Item.mk UNKNOWN_SKU_TXT u)) :
    addItemToBillIn stock discounts acc sku = acc ∧
      bl.foldl (addItemToBillIn stock discounts) acc =
        (bl.filter fun x => decide (¬ x = sku)).foldl
          (addItemToBillIn stock discounts) acc := by
  have hdesc : (genericMapGet stock UNKNOWN_SKU sku).desc = UNKNOWN_SKU_TXT := by
    simp [genericMapGet, h]
  constructor
  · exact addItemToBillIn_of_dropped hdesc
  · refine foldl_filter_of_id _ _ ?_ bl acc
    intro a x hx
    have hxs : x = sku := by simpa using hx
    subst hxs
    exact addItemToBillIn_of_dropped hdesc

/-- Witness for the C10 theorem: a one-entry registry whose item under key
`9` carries the marker description, on the basket `[9]`. -/
theorem marker_desc_occurrences_dropped_witness :
    addItemToBillIn [((9 : Nat), Item.mk UNKNOWN_SKU_TXT 5)] [] [] 9 = [] ∧
      ([9] : List Nat).foldl
          (addItemToBillIn [((9 : Nat), Item.mk UNKNOWN_SKU_TXT 5)] []) [] =
        (([9] : List Nat).filter fun x => decide (¬ x = 9)).foldl
          (addItemToBillIn [((9 : Nat), Item.mk UNKNOWN_SKU_TXT 5)] []) [] :=
  marker_desc_occurrences_dropped [((9 : Nat), Item.mk UNKNOWN_SKU_TXT 5)] [] [] [9] 9 5 rfl

end ShoppingList
